import Mathlib

/-!
Verification development for the hd2-lut-editor image codec core.

The Go sources are shallowly embedded:
* bytes are `Nat` values `< 256`; machine integers are `Nat`/`Int` with
  explicit `% 2^w` wrapping where the Go code can overflow;
* `float32`/`float16` channel values are represented by their raw bit
  patterns (the claims under study are about bit-exact data movement,
  never about floating-point arithmetic);
* byte streams are `List Nat`; fallible parsing returns `Option`/`Except`.
-/

namespace HD2

/-- Little-endian byte encoding of a 32-bit value (`binary.Write` of a
`uint32`/`float32` bit pattern with `binary.LittleEndian`). -/
def u32le (n : Nat) : List Nat :=
  [n % 256, n / 256 % 256, n / 65536 % 256, n / 16777216 % 256]

/-- Little-endian read of a 32-bit value from the head of a byte stream
(`binary.Read` of a `uint32` with `binary.LittleEndian`). -/
def readU32 : List Nat → Option (Nat × List Nat)
  | b0 :: b1 :: b2 :: b3 :: rest =>
      some (b0 + 256 * b1 + 65536 * b2 + 16777216 * b3, rest)
  | _ => none

end HD2

namespace HD2.openexr

/-!
## `openexr` package: the ZIP-family byte transforms

Translated from `openexr.go` (`reconstruct`, `interleave`, `deconstruct`,
`reorder`).  Bytes are modelled as `Int` values in `[0, 256)`; Go's
`byte(x)` conversion of an `int` expression is `x % 256` (`Int.emod`,
always in `[0, 256)`).
-/

/-- Tail of `reconstruct`: `output[i] = byte(int(output[i-1]) + int(data[i]) - 128)`,
`prev` being the previously reconstructed byte. -/
def reconstructFrom (prev : Int) : List Int → List Int
  | [] => []
  | x :: xs =>
      let y := (prev + x - 128) % 256
      y :: reconstructFrom y xs

/-- Go `reconstruct` from `openexr.go`: `output[0] = data[0]`, then the biased
delta accumulation of `reconstructFrom`. -/
def reconstruct : List Int → List Int
  | [] => []
  | x :: xs => x :: reconstructFrom x xs

/-- Tail of `deconstruct`: `output[i] = byte(int(data[i]) - p + 0x180)` where
`p` is the previous *raw* input byte. -/
def deconstructFrom (p : Int) : List Int → List Int
  | [] => []
  | x :: xs => ((x - p + 384) % 256) :: deconstructFrom x xs

/-- Go `deconstruct` from `openexr.go`: `output[0] = data[0]`, then the biased
delta encoding of `deconstructFrom`. -/
def deconstruct : List Int → List Int
  | [] => []
  | x :: xs => x :: deconstructFrom x xs

/-- Go `interleave` from `openexr.go`.  The Go code allocates a zero byte slice
of the input length and, for `i < len/2`, writes `output[2i] = data[i]` and
`output[2i+1] = data[i + (len+1)/2]`; every other slot keeps the zero the
allocation gave it.  The `List.ofFn` below states exactly which input byte
(if any) each output slot receives. -/
def interleave (l : List Int) : List Int :=
  List.ofFn (n := l.length) fun j =>
    if j.val / 2 < l.length / 2 then
      if j.val % 2 = 0 then l.getD (j.val / 2) 0
      else l.getD (j.val / 2 + (l.length + 1) / 2) 0
    else 0

/-- Go `reorder` from `openexr.go`.  The Go code allocates a zero byte slice of
the input length and, for `i < len/2`, writes `output[i] = data[2i]` and
`output[i + (len+1)/2] = data[2i+1]`; every other slot keeps its zero. -/
def reorder (l : List Int) : List Int :=
  List.ofFn (n := l.length) fun j =>
    if j.val < l.length / 2 then l.getD (2 * j.val) 0
    else if (l.length + 1) / 2 ≤ j.val ∧ j.val - (l.length + 1) / 2 < l.length / 2 then
      l.getD (2 * (j.val - (l.length + 1) / 2) + 1) 0
    else 0

end HD2.openexr

namespace HD2.openexr

/-!
## `openexr` package: header and scanline reading
-/

/-- The `PixelType` enum (`TypeUInt`, `TypeHalf`, `TypeFloat`). -/
inductive PixelType where
  | uint | half | float
deriving DecidableEq, Repr

/-- Go `PixelType.Size`. -/
def PixelType.size : PixelType → Nat
  | .uint => 4
  | .half => 2
  | .float => 4

/-- The `Compression` enum. -/
inductive Compression where
  | noComp | rle | zips | zip | piz | pxr24 | b44 | b44a | dwaa | dwab
deriving DecidableEq, Repr

/-- Go `Compression.LineCount`. -/
def Compression.lineCount : Compression → Nat
  | .noComp => 1
  | .rle => 1
  | .zips => 1
  | .zip => 16
  | .piz => 32
  | .pxr24 => 16
  | .b44 => 32
  | .b44a => 32
  | .dwaa => 32
  | .dwab => 256

/-- Go `Box2i` (four `uint32` fields). -/
structure Box2i where
  xMin : Nat
  yMin : Nat
  xMax : Nat
  yMax : Nat
deriving DecidableEq, Repr

/-- Wrapping `uint32` subtraction. -/
def u32sub (a b : Nat) : Nat := (a + 4294967296 - b % 4294967296) % 4294967296

/-- Wrapping `uint32` multiplication. -/
def u32mul (a b : Nat) : Nat := a * b % 4294967296

/-- Go `Box2i.Width() = XMax - XMin + 1` in `uint32` arithmetic. -/
def Box2i.xExtent (b : Box2i) : Nat := (u32sub b.xMax b.xMin + 1) % 4294967296

/-- Go `YMax - YMin + 1` in `uint32` arithmetic. -/
def Box2i.yExtent (b : Box2i) : Nat := (u32sub b.yMax b.yMin + 1) % 4294967296

/-- The scanline-reading loop of `LoadOpenEXR`, restricted to the metadata
it assigns to each block: given the running `height`, the loop computes
`lineCount = min(height, compression.LineCount())`, decrements `height` by
the full `LineCount()` (wrapping `uint32` subtraction), and sets
`Compressed = lineCount*width*uint32(pixelSize) > scanline.Size` (wrapping
`uint32` multiplications).  One entry `(LineCount, Compressed)` is
produced per stored block size. -/
def loadScanlineMeta (width pixelSize lc : Nat) : Nat → List Nat → List (Nat × Bool)
  | _, [] => []
  | height, size :: rest =>
      let lineCount := min height lc
      (lineCount, decide (size < u32mul (u32mul lineCount width) pixelSize)) ::
        loadScanlineMeta width pixelSize lc (u32sub height lc) rest

/-- The block metadata computed by `LoadOpenEXR` for each scanline block of
a file, given its data window, channel list, compression scheme and the
stored `Size` field of each block.  NOTE (faithful to the source): both
the `height` and the `width` local are initialised from the **Y** extent
of the data window — `openexr.go` line 437 reads
`width := (header.DataWindow.YMax - header.DataWindow.YMin + 1)`. -/
def loadOpenEXRScanlineMeta (dw : Box2i) (channels : List PixelType)
    (comp : Compression) (sizes : List Nat) : List (Nat × Bool) :=
  let height := dw.yExtent
  let width := dw.yExtent
  let pixelSize := (channels.map PixelType.size).sum
  loadScanlineMeta width pixelSize comp.lineCount height sizes

/-- Go `openEXRFromHDRImage`: the writer's uncompressed scanline-block size,
`uint32(compression.LineCount()) * dataWindow.Width() * uint32(pixelFmt.Size())
* uint32(len(channels))` with `compression = CompressionZIP`. -/
def writerUncompressedSize (dw : Box2i) (pt : PixelType) (numChannels : Nat) : Nat :=
  u32mul (u32mul (u32mul Compression.zip.lineCount dw.xExtent) pt.size) numChannels

/-- The required-attribute names of `loadEXRHeader`. -/
def exrRequiredFields : List String :=
  ["channels", "compression", "dataWindow", "displayWindow", "lineOrder",
    "pixelAspectRatio", "screenWindowCenter", "screenWindowWidth"]

/-- The attribute loop of `loadEXRHeader`, restricted to its effect on the
`requiredFields` list: for each attribute name read from the stream (in
order), `slices.Index` finds the name's first occurrence in the remaining
required list and, when present, splices it out (`List.erase`); recognized
names parse their typed value and unrecognized names skip `size` raw
bytes, neither of which affects the list. -/
def remainingRequired (attrs : List String) : List String :=
  attrs.foldl (fun req name => req.erase name) exrRequiredFields

/-- After the attribute terminator, `loadEXRHeader` fails with
`"exr missing required fields %v"` listing the still-remaining required
names iff that list is non-empty. -/
def checkRequiredFields (attrs : List String) : Except (List String) Unit :=
  if remainingRequired attrs = [] then .ok () else .error (remainingRequired attrs)

end HD2.openexr

namespace HD2.hdrColors

/-!
## `hdrColors` package: pixel planes

Translated from `hdrColors.go`.  The three image types `NRGBA128FImage`
(16 bytes/pixel), `NRGBA64FImage` (8 bytes/pixel) and `NRGBA128UImage`
(16 bytes/pixel) share one record shape; a plane's `Pix` slice is a view
into a Go backing array, modelled by an optional backing-array identity
`buf` (`none` is the nil slice of a zero-value image) together with the
offset `off` of the view inside that array.  `At`/`Set`/`Opaque` read and
write the backing array, passed explicitly as `mem : List Nat`.
Channel values are raw little-endian bit patterns (`Nat`).
-/

/-- Go `image.Rectangle` (integer coordinates, `Min` inclusive, `Max` exclusive). -/
structure Rect where
  minX : Int
  minY : Int
  maxX : Int
  maxY : Int
deriving DecidableEq, Repr

/-- Go `Rectangle.Empty`: `Min.X >= Max.X || Min.Y >= Max.Y`. -/
def Rect.isEmpty (r : Rect) : Bool :=
  r.maxX ≤ r.minX || r.maxY ≤ r.minY

/-- Go `Point.In(r)`: `Min.X <= x < Max.X && Min.Y <= y < Max.Y`. -/
def Rect.inRect (r : Rect) (x y : Int) : Bool :=
  r.minX ≤ x && x < r.maxX && r.minY ≤ y && y < r.maxY

/-- Go `Rectangle.Intersect`: componentwise max/min, and the zero rectangle
when the result is empty (as the Go standard library does). -/
def Rect.intersect (r s : Rect) : Rect :=
  let t : Rect := ⟨max r.minX s.minX, max r.minY s.minY, min r.maxX s.maxX, min r.maxY s.maxY⟩
  if t.isEmpty then ⟨0, 0, 0, 0⟩ else t

/-- Go `Rectangle.Dx`. -/
def Rect.dx (r : Rect) : Int := r.maxX - r.minX

/-- The `GraySetting` enum. -/
inductive GraySetting where
  | none | red | green | blue | alpha | noAlpha
deriving DecidableEq, Repr

/-- One of the three HDR plane types.  `buf` identifies the Go backing
array of the `Pix` slice (`Option.none` models a nil `Pix`), `off` is the
start of the `Pix` view inside it, `stride`/`rect`/`gray` are the
`Stride`, `Rect` and `Grayscale` fields. -/
structure HPlane where
  buf : Option Nat
  off : Int
  stride : Int
  rect : Rect
  gray : GraySetting
deriving DecidableEq, Repr

/-- A decoded pixel: the four channel values as raw bit patterns. -/
structure Px where
  r : Nat
  g : Nat
  b : Nat
  a : Nat
deriving DecidableEq, Repr

/-- Little-endian decode of `width` bytes of the backing array starting at
byte index `addr` (out-of-range bytes read as 0). -/
def readLE (mem : List Nat) (addr : Nat) : Nat → Nat
  | 0 => 0
  | w + 1 => mem.getD addr 0 + 256 * readLE mem (addr + 1) w

/-- Overwrite bytes of the backing array starting at `addr`
(`binary.Encode` into a subslice; out-of-range writes are dropped, the Go
code would panic there). -/
def writeBytes (mem : List Nat) (addr : Nat) : List Nat → List Nat
  | [] => mem
  | b :: bs => writeBytes (mem.set addr b) (addr + 1) bs

/-- Go `PixOffset(x, y) = (y-Rect.Min.Y)*Stride + (x-Rect.Min.X)*bpp`, plus the
view's own offset in the backing array: the absolute byte address of the
pixel `(x, y)`. -/
def pixAddr (bpp : Nat) (p : HPlane) (x y : Int) : Int :=
  p.off + (y - p.rect.minY) * p.stride + (x - p.rect.minX) * (bpp : Int)

/-- The grayscale-preview switch shared by the three `At` methods: `one` is
the bit pattern the source stores for alpha `1.0` in this plane's channel
width (`0x3F800000` for float32, `0x3C00` for float16, `0xFFFFFFFF` for
uint32). -/
def grayApply (gray : GraySetting) (one : Nat) (px : Px) : Px :=
  match gray with
  | .none => px
  | .red => ⟨px.r, px.r, px.r, one⟩
  | .green => ⟨px.g, px.g, px.g, one⟩
  | .blue => ⟨px.b, px.b, px.b, one⟩
  | .alpha => ⟨px.a, px.a, px.a, one⟩
  | .noAlpha => ⟨px.r, px.g, px.b, one⟩

/-- Go `NRGBA128FImage.NRGBA128FAt`: zero pixel outside `Rect`, otherwise the
four little-endian float32 bit patterns at the pixel's address, with the
grayscale transform applied. -/
def nrgba128FAt (mem : List Nat) (p : HPlane) (x y : Int) : Px :=
  if !(p.rect.inRect x y) then ⟨0, 0, 0, 0⟩
  else
    let i := (pixAddr 16 p x y).toNat
    grayApply p.gray 0x3F800000
      ⟨readLE mem i 4, readLE mem (i + 4) 4, readLE mem (i + 8) 4, readLE mem (i + 12) 4⟩

/-- Go `NRGBA64FImage.NRGBA64FAt`: zero pixel outside `Rect`, otherwise the
four little-endian float16 bit patterns, with the grayscale transform. -/
def nrgba64FAt (mem : List Nat) (p : HPlane) (x y : Int) : Px :=
  if !(p.rect.inRect x y) then ⟨0, 0, 0, 0⟩
  else
    let i := (pixAddr 8 p x y).toNat
    grayApply p.gray 0x3C00
      ⟨readLE mem i 2, readLE mem (i + 2) 2, readLE mem (i + 4) 2, readLE mem (i + 6) 2⟩

/-- Go `NRGBA128UImage.NRGBA128UAt`: zero pixel outside `Rect`, otherwise the
four little-endian uint32 values, with the grayscale transform. -/
def nrgba128UAt (mem : List Nat) (p : HPlane) (x y : Int) : Px :=
  if !(p.rect.inRect x y) then ⟨0, 0, 0, 0⟩
  else
    let i := (pixAddr 16 p x y).toNat
    grayApply p.gray 0xFFFFFFFF
      ⟨readLE mem i 4, readLE mem (i + 4) 4, readLE mem (i + 8) 4, readLE mem (i + 12) 4⟩

/-- Go `NRGBA128FImage.Set` with a native `NRGBA128F` color: no-op outside
`Rect`, otherwise writes the four channels little-endian at the pixel's
address, returning the updated backing array. -/
def nrgba128FSet (mem : List Nat) (p : HPlane) (x y : Int) (c : Px) : List Nat :=
  if !(p.rect.inRect x y) then mem
  else writeBytes mem (pixAddr 16 p x y).toNat (u32le c.r ++ u32le c.g ++ u32le c.b ++ u32le c.a)

/-- Little-endian byte encoding of a 16-bit value. -/
def u16le (n : Nat) : List Nat := [n % 256, n / 256 % 256]

/-- Go `NRGBA64FImage.Set` with a native `NRGBA64F` color. -/
def nrgba64FSet (mem : List Nat) (p : HPlane) (x y : Int) (c : Px) : List Nat :=
  if !(p.rect.inRect x y) then mem
  else writeBytes mem (pixAddr 8 p x y).toNat (u16le c.r ++ u16le c.g ++ u16le c.b ++ u16le c.a)

/-- Go `NRGBA128UImage.Set` with a native `NRGBA128U` color. -/
def nrgba128USet (mem : List Nat) (p : HPlane) (x y : Int) (c : Px) : List Nat :=
  if !(p.rect.inRect x y) then mem
  else writeBytes mem (pixAddr 16 p x y).toNat (u32le c.r ++ u32le c.g ++ u32le c.b ++ u32le c.a)

/-- The zero-value plane `&NRGBA…Image{}` returned by `SubImage` for an
empty intersection: nil `Pix`, zero stride, zero rectangle, gray `None`. -/
def emptyPlane : HPlane := ⟨none, 0, 0, ⟨0, 0, 0, 0⟩, .none⟩

/-- Go `NRGBA128FImage.SubImage`: intersect, detach on empty intersection,
otherwise share the backing array from the intersection's origin, keeping
`Stride` and copying `Grayscale`. -/
def nrgba128FSubImage (p : HPlane) (r : Rect) : HPlane :=
  let r2 := r.intersect p.rect
  if r2.isEmpty then emptyPlane
  else ⟨p.buf, pixAddr 16 p r2.minX r2.minY, p.stride, r2, p.gray⟩

/-- Go `NRGBA64FImage.SubImage`: same as the 128F version except that the
returned struct literal omits the `Grayscale` field, so the view's
`Grayscale` is the zero value `GraySettingNone`. -/
def nrgba64FSubImage (p : HPlane) (r : Rect) : HPlane :=
  let r2 := r.intersect p.rect
  if r2.isEmpty then emptyPlane
  else ⟨p.buf, pixAddr 8 p r2.minX r2.minY, p.stride, r2, .none⟩

/-- Go `NRGBA128UImage.SubImage`: as the 128F version, copying `Grayscale`. -/
def nrgba128USubImage (p : HPlane) (r : Rect) : HPlane :=
  let r2 := r.intersect p.rect
  if r2.isEmpty then emptyPlane
  else ⟨p.buf, pixAddr 16 p r2.minX r2.minY, p.stride, r2, p.gray⟩

/-- The row scan shared by the three `Opaque` methods.  The Go loop body is
`binary.Decode(p.Pix[i:], binary.LittleEndian, alpha)` — the local `alpha`
is passed *by value*, so the decode writes nothing (its error is ignored)
and `alpha` keeps its zero value; `alpha < 1.0` therefore holds and every
executed iteration returns `false`.  A row's inner loop runs exactly when
`i0 < i1`, so the scan returns `true` only if no iteration ever runs. -/
def opaqueRows (stride : Int) : Nat → Int → Int → Bool
  | 0, _, _ => true
  | rows + 1, i0, i1 =>
      if i0 < i1 then false
      else opaqueRows stride rows (i0 + stride) (i1 + stride)

/-- Go `NRGBA128FImage.Opaque`: `true` for an empty `Rect`, otherwise the row
scan starting from `i0 = 12`, `i1 = Dx*16`. -/
def nrgba128FOpaque (p : HPlane) : Bool :=
  if p.rect.isEmpty then true
  else opaqueRows p.stride (p.rect.maxY - p.rect.minY).toNat 12 (p.rect.dx * 16)

/-- Go `NRGBA64FImage.Opaque`: `i0 = 12`, `i1 = Dx*8`. -/
def nrgba64FOpaque (p : HPlane) : Bool :=
  if p.rect.isEmpty then true
  else opaqueRows p.stride (p.rect.maxY - p.rect.minY).toNat 12 (p.rect.dx * 8)

/-- Go `NRGBA128UImage.Opaque`: `i0 = 12`, `i1 = Dx*16`. -/
def nrgba128UOpaque (p : HPlane) : Bool :=
  if p.rect.isEmpty then true
  else opaqueRows p.stride (p.rect.maxY - p.rect.minY).toNat 12 (p.rect.dx * 16)

end HD2.hdrColors

namespace HD2.dds

/-!
## `dds` package

`dds.go` is under `src/`; the package's other files (the `Header` /
`DXT10Header` struct declarations with their flag constants, `DecodeHeader`
and the `Decompress*` functions) are not, so those are modelled from the
spec (§4.3, §4.5, §6) and from the Microsoft DDS layout the spec requires
bit-for-bit compatibility with.
-/

/-- The 32-byte `PixelFormat` struct nested in the DDS header. -/
structure DDSPixelFormat where
  size : Nat
  flags : Nat
  fourCC : List Nat
  rgbBitCount : Nat
  rBitMask : Nat
  gBitMask : Nat
  bBitMask : Nat
  aBitMask : Nat
deriving DecidableEq, Repr

/-- The fixed 124-byte DDS `Header` struct. -/
structure DDSHeader where
  size : Nat
  flags : Nat
  height : Nat
  width : Nat
  pitchOrLinearSize : Nat
  depth : Nat
  mipMapCount : Nat
  reserved : List Nat
  pixelFormat : DDSPixelFormat
  caps : Nat
  caps2 : Nat
  caps3 : Nat
  caps4 : Nat
  reserved2 : Nat
deriving DecidableEq, Repr

/-- The 20-byte `DXT10Header` extension struct. -/
structure DXT10Header where
  dxgiFormat : Nat
  resourceDimension : Nat
  miscFlag : Nat
  arraySize : Nat
  miscFlags2 : Nat
deriving DecidableEq, Repr

/-- Modelled from the spec: the DDS header/caps bit masks used by
`DecodeInfo` and `WriteHDR`, per the Microsoft DDS specification (the
repository file declaring them is not under `src/`). -/
def headerFlagCaps : Nat := 0x1
def headerFlagHeight : Nat := 0x2
def headerFlagWidth : Nat := 0x4
def headerFlagPixelFormat : Nat := 0x1000
def headerFlagMipMapCount : Nat := 0x20000
def pixelFormatFlagAlphaPixels : Nat := 0x1
def pixelFormatFlagFourCC : Nat := 0x4
def pixelFormatFlagRGB : Nat := 0x40
def pixelFormatFlagYUV : Nat := 0x200
def pixelFormatFlagLuminance : Nat := 0x20000
def capsFlag : Nat := 0x8
def capsTexture : Nat := 0x1000
def capsMipMap : Nat := 0x400000
def caps2Cubemap : Nat := 0x200
def caps2CubemapPlusX : Nat := 0x400
def caps2CubemapMinusX : Nat := 0x800
def caps2CubemapPlusY : Nat := 0x1000
def caps2CubemapMinusY : Nat := 0x2000
def caps2CubemapPlusZ : Nat := 0x4000
def caps2CubemapMinusZ : Nat := 0x8000
def caps2Volume : Nat := 0x200000
def d3d10ResourceDimensionTexture2D : Nat := 3
def d3d10ResourceMiscFlagTextureCube : Nat := 0x4

/-- Modelled from the spec: the DXGI format codes dispatched on by
`DecodeInfo` (values from `dxgiformat.h`; the repository file declaring
them is not under `src/`). -/
def dxgiR32G32B32A32Float : Nat := 2
def dxgiR32G32B32A32UInt : Nat := 3
def dxgiR32G32B32Float : Nat := 6
def dxgiR16G16B16A16Float : Nat := 10
def dxgiR16G16B16A16UNorm : Nat := 11
def dxgiR32G32Float : Nat := 16
def dxgiR8G8B8A8UNorm : Nat := 28
def dxgiR32Float : Nat := 41
def dxgiR16UNorm : Nat := 56
def dxgiR8UNorm : Nat := 61
def dxgiBC1UNorm : Nat := 71
def dxgiBC2UNorm : Nat := 74
def dxgiBC3UNorm : Nat := 77
def dxgiBC4UNorm : Nat := 80
def dxgiBC5UNorm : Nat := 83
def dxgiBC7UNorm : Nat := 98
def dxgiBC7UNormSRGB : Nat := 99

/-- The FourCC codes `DecodeInfo` compares against, as byte quadruples. -/
def fourCCATI1 : List Nat := [65, 84, 73, 49]
def fourCCATI2 : List Nat := [65, 84, 73, 50]
def fourCCDXT1 : List Nat := [68, 88, 84, 49]
def fourCCDXT3 : List Nat := [68, 88, 84, 51]
def fourCCDXT5 : List Nat := [68, 88, 84, 53]
def fourCCDX10 : List Nat := [68, 88, 49, 48]

/-- The 4-byte magic `"DDS "`. -/
def ddsMagic : List Nat := [68, 68, 83, 32]

/-- The `color.Model` values `DecodeInfo` can assign (`unset` is Go's nil
interface value, left when no pixel-format flag branch fires). -/
inductive ColorModelM where
  | unset | nrgba | ycbcr | nycbcra | gray | gray16 | nrgba64 | nrgba128F | nrgba64F
deriving DecidableEq, Repr

/-- The `DecompressFunc` values `DecodeInfo` can assign, as tags (`unset`
is Go's nil function value). -/
inductive DecompTag where
  | unset | uncompressed | uncompressedDXT10 | dxt1 | dxt5 | threeDc | threeDcPlus | bc7
deriving DecidableEq, Repr

/-- Go `binary.Write` of the nested `PixelFormat` struct, little-endian. -/
def encodePixelFormat (pf : DDSPixelFormat) : List Nat :=
  u32le pf.size ++ u32le pf.flags ++ pf.fourCC ++ u32le pf.rgbBitCount ++
    u32le pf.rBitMask ++ u32le pf.gBitMask ++ u32le pf.bBitMask ++ u32le pf.aBitMask

/-- Go `binary.Write` of the `[11]uint32` reserved block (or any `uint32`
sequence), little-endian. -/
def encodeU32List : List Nat → List Nat
  | [] => []
  | v :: vs => u32le v ++ encodeU32List vs

/-- Go `binary.Write` of the fixed `Header` struct, little-endian, in the
Microsoft field order. -/
def encodeHeader (h : DDSHeader) : List Nat :=
  u32le h.size ++ u32le h.flags ++ u32le h.height ++ u32le h.width ++
    u32le h.pitchOrLinearSize ++ u32le h.depth ++ u32le h.mipMapCount ++
    encodeU32List h.reserved ++ encodePixelFormat h.pixelFormat ++
    u32le h.caps ++ u32le h.caps2 ++ u32le h.caps3 ++ u32le h.caps4 ++ u32le h.reserved2

/-- Go `binary.Write` of the `DXT10Header` struct, little-endian. -/
def encodeDXT10 (d : DXT10Header) : List Nat :=
  u32le d.dxgiFormat ++ u32le d.resourceDimension ++ u32le d.miscFlag ++
    u32le d.arraySize ++ u32le d.miscFlags2

/-- Read `k` raw bytes from the stream; `none` on a truncated stream. -/
def readBytes (k : Nat) (s : List Nat) : Option (List Nat × List Nat) :=
  if s.length < k then none else some (s.take k, s.drop k)

/-- Read a `[4]byte` field from the head of the stream. -/
def read4 : List Nat → Option (List Nat × List Nat)
  | a :: b :: c :: d :: rest => some ([a, b, c, d], rest)
  | _ => none

/-- Modelled from the spec: `DecodeHeader` reads the nested 32-byte
`PixelFormat` little-endian (the file defining it is not under `src/`). -/
def decodePixelFormat (s : List Nat) : Option (DDSPixelFormat × List Nat) :=
  match readU32 s with
  | none => none
  | some (sz, s) =>
  match readU32 s with
  | none => none
  | some (fl, s) =>
  match read4 s with
  | none => none
  | some (fcc, s) =>
  match readU32 s with
  | none => none
  | some (rgbc, s) =>
  match readU32 s with
  | none => none
  | some (rm, s) =>
  match readU32 s with
  | none => none
  | some (gm, s) =>
  match readU32 s with
  | none => none
  | some (bm, s) =>
  match readU32 s with
  | none => none
  | some (am, s) => some (⟨sz, fl, fcc, rgbc, rm, gm, bm, am⟩, s)

/-- Modelled from the spec: `DecodeHeader` reads the 4-byte magic `"DDS "`
followed by the fixed 124-byte little-endian `Header` struct (the file
defining it is not under `src/`). -/
def decodeHeader (s : List Nat) : Option (DDSHeader × List Nat) :=
  match read4 s with
  | none => none
  | some (magic, s) =>
  if magic ≠ ddsMagic then none else
  match readU32 s with
  | none => none
  | some (sz, s) =>
  match readU32 s with
  | none => none
  | some (fl, s) =>
  match readU32 s with
  | none => none
  | some (hh, s) =>
  match readU32 s with
  | none => none
  | some (ww, s) =>
  match readU32 s with
  | none => none
  | some (pls, s) =>
  match readU32 s with
  | none => none
  | some (dp, s) =>
  match readU32 s with
  | none => none
  | some (mmc, s) =>
  match readU32 s with
  | none => none
  | some (r0, s) =>
  match readU32 s with
  | none => none
  | some (r1, s) =>
  match readU32 s with
  | none => none
  | some (r2, s) =>
  match readU32 s with
  | none => none
  | some (r3, s) =>
  match readU32 s with
  | none => none
  | some (r4, s) =>
  match readU32 s with
  | none => none
  | some (r5, s) =>
  match readU32 s with
  | none => none
  | some (r6, s) =>
  match readU32 s with
  | none => none
  | some (r7, s) =>
  match readU32 s with
  | none => none
  | some (r8, s) =>
  match readU32 s with
  | none => none
  | some (r9, s) =>
  match readU32 s with
  | none => none
  | some (r10, s) =>
  match decodePixelFormat s with
  | none => none
  | some (pf, s) =>
  match readU32 s with
  | none => none
  | some (c1, s) =>
  match readU32 s with
  | none => none
  | some (c2, s) =>
  match readU32 s with
  | none => none
  | some (c3, s) =>
  match readU32 s with
  | none => none
  | some (c4, s) =>
  match readU32 s with
  | none => none
  | some (rs2, s) =>
      some (⟨sz, fl, hh, ww, pls, dp, mmc, [r0, r1, r2, r3, r4, r5, r6, r7, r8, r9, r10],
        pf, c1, c2, c3, c4, rs2⟩, s)

/-- Modelled from the spec: `DecodeDXT10Header` reads the 20-byte
little-endian extension struct. -/
def decodeDXT10 (s : List Nat) : Option (DXT10Header × List Nat) :=
  match readU32 s with
  | none => none
  | some (fmtv, s) =>
  match readU32 s with
  | none => none
  | some (rd, s) =>
  match readU32 s with
  | none => none
  | some (mf, s) =>
  match readU32 s with
  | none => none
  | some (asz, s) =>
  match readU32 s with
  | none => none
  | some (mf2, s) => some (⟨fmtv, rd, mf, asz, mf2⟩, s)

/-- The DXGI-format switch inside `DecodeInfo`'s `DX10` case
(`dds.go` lines 153–195). -/
def classifyDXGI (f : Nat) : Except String (ColorModelM × DecompTag) :=
  if f = dxgiR32G32B32A32Float ∨ f = dxgiR32G32B32Float then
    .ok (.nrgba128F, .uncompressedDXT10)
  else if f = dxgiR16G16B16A16Float ∨ f = dxgiR16G16B16A16UNorm then
    .ok (.nrgba64F, .uncompressedDXT10)
  else if f = dxgiR32G32Float then .ok (.nrgba64, .uncompressedDXT10)
  else if f = dxgiR32Float ∨ f = dxgiR16UNorm then .ok (.gray16, .uncompressedDXT10)
  else if f = dxgiR8UNorm then .ok (.gray, .uncompressedDXT10)
  else if f = dxgiR8G8B8A8UNorm then .ok (.nrgba, .uncompressedDXT10)
  else if f = dxgiBC1UNorm then .ok (.nrgba, .dxt1)
  else if f = dxgiBC2UNorm then .error "DXT3 compression unsupported"
  else if f = dxgiBC3UNorm then .ok (.nrgba, .dxt5)
  else if f = dxgiBC4UNorm then .ok (.gray, .threeDcPlus)
  else if f = dxgiBC5UNorm then .ok (.nrgba, .threeDc)
  else if f = dxgiBC7UNorm then .ok (.nrgba, .bc7)
  else if f = dxgiBC7UNormSRGB then .error "BC7 SRGB compression unsupported"
  else .error "unsupported DXGI format"

/-- The format-classification part of `DecodeInfo` (`dds.go` lines
101–203): the pixel-format flag chain, the FourCC dispatch, and the
conditional `DXT10Header` read.  Returns the color model, decompressor
tag, optional extension header and remaining stream. -/
def classifyInfo (hdr : DDSHeader) (s : List Nat) :
    Except String (ColorModelM × DecompTag × Option DXT10Header × List Nat) :=
  if hdr.pixelFormat.flags &&& pixelFormatFlagRGB ≠ 0 then
    .ok (.nrgba, .uncompressed, none, s)
  else if hdr.pixelFormat.flags &&& pixelFormatFlagYUV ≠ 0 then
    if hdr.pixelFormat.flags &&& pixelFormatFlagAlphaPixels = 0 then
      .ok (.ycbcr, .uncompressed, none, s)
    else .ok (.nycbcra, .uncompressed, none, s)
  else if hdr.pixelFormat.flags &&& pixelFormatFlagLuminance ≠ 0 then
    if hdr.pixelFormat.flags &&& pixelFormatFlagAlphaPixels = 0 then
      if hdr.pixelFormat.gBitMask = 0 ∧ hdr.pixelFormat.bBitMask = 0 then
        if 8 < hdr.pixelFormat.rgbBitCount then .ok (.gray16, .uncompressed, none, s)
        else .ok (.gray, .uncompressed, none, s)
      else .ok (.nrgba, .uncompressed, none, s)
    else .ok (.nrgba, .uncompressed, none, s)
  else if hdr.pixelFormat.flags &&& pixelFormatFlagFourCC ≠ 0 then
    if hdr.pixelFormat.fourCC = fourCCATI1 then .ok (.gray, .threeDcPlus, none, s)
    else if hdr.pixelFormat.fourCC = fourCCATI2 then .ok (.nrgba, .threeDc, none, s)
    else if hdr.pixelFormat.fourCC = fourCCDXT1 then .ok (.nrgba, .dxt1, none, s)
    else if hdr.pixelFormat.fourCC = fourCCDXT3 then .error "DXT3 compression unsupported"
    else if hdr.pixelFormat.fourCC = fourCCDXT5 then .ok (.nrgba, .dxt5, none, s)
    else if hdr.pixelFormat.fourCC = fourCCDX10 then
      match decodeDXT10 s with
      | none => .error "failed to read DXT10 header"
      | some (dx10, s2) =>
          if dx10.resourceDimension ≠ d3d10ResourceDimensionTexture2D then
            .error "unsupported DXT10 resource dimension"
          else
            match classifyDXGI dx10.dxgiFormat with
            | .error e => .error e
            | .ok (cm, tag) => .ok (cm, tag, some dx10, s2)
    else .error "unsupported cmpression format: unknown fourCC"
  else .ok (.unset, .unset, none, s)

/-- The number of set cubemap face bits among the six `Caps2` face flags
(`dds.go` lines 211–231). -/
def countFaces (c2 : Nat) : Nat :=
  (if c2 &&& caps2CubemapPlusX ≠ 0 then 1 else 0) +
  (if c2 &&& caps2CubemapMinusX ≠ 0 then 1 else 0) +
  (if c2 &&& caps2CubemapPlusY ≠ 0 then 1 else 0) +
  (if c2 &&& caps2CubemapMinusY ≠ 0 then 1 else 0) +
  (if c2 &&& caps2CubemapPlusZ ≠ 0 then 1 else 0) +
  (if c2 &&& caps2CubemapMinusZ ≠ 0 then 1 else 0)

/-- The image/mip counting part of `DecodeInfo` (`dds.go` lines 98–99 and
205–250): `NumImages` starts at 1, is overridden by the DXT10 array size,
then by the cubemap face count (the cubemap flag also comes from the
DXT10 misc flag), then by the volume depth, and must be nonzero;
`NumMipMaps` is the header's count when the mipmap cap is set together
with the texture or cubemap cap, else 1, and must be nonzero. -/
def isCubemap (hdr : DDSHeader) (dxt10 : Option DXT10Header) : Bool :=
  (hdr.caps2 &&& caps2Cubemap != 0) ||
    (match dxt10 with
      | some d => d.miscFlag &&& d3d10ResourceMiscFlagTextureCube != 0
      | none => false)

/-- Go `volume := hdr.Caps2&Caps2Volume != 0 && hdr.Depth > 0`. -/
def isVolume (hdr : DDSHeader) : Bool :=
  (hdr.caps2 &&& caps2Volume != 0) && (hdr.depth != 0)

/-- The `NumImages` value of `DecodeInfo`: 1, overridden in turn by the
DXT10 array size, the cubemap face count and the volume depth. -/
def numImagesOf (hdr : DDSHeader) (dxt10 : Option DXT10Header) : Nat :=
  if isVolume hdr then hdr.depth
  else if isCubemap hdr dxt10 then countFaces hdr.caps2
  else match dxt10 with
    | some d => d.arraySize
    | none => 1

/-- The `NumMipMaps` value of `DecodeInfo`: the header count when the
mipmap cap is set together with the texture or cubemap cap, else 1. -/
def numMipMapsOf (hdr : DDSHeader) : Nat :=
  if (hdr.caps &&& capsMipMap != 0) &&
      ((hdr.caps &&& capsTexture != 0) || (hdr.caps2 &&& caps2Cubemap != 0)) then
    hdr.mipMapCount
  else 1

def computeCounts (hdr : DDSHeader) (dxt10 : Option DXT10Header) :
    Except String (Nat × Nat) :=
  if numImagesOf hdr dxt10 = 0 then .error "invalid image header: no images"
  else if numMipMapsOf hdr = 0 then
    .error "invalid image header: base image mipmap (mip 0) missing"
  else .ok (numImagesOf hdr dxt10, numMipMapsOf hdr)

/-- The decoded `Info` structure (header, optional extension, color model,
decompressor tag and the two counts). -/
structure InfoM where
  header : DDSHeader
  dxt10 : Option DXT10Header
  colorModel : ColorModelM
  decompress : DecompTag
  numImages : Nat
  numMipMaps : Nat
deriving DecidableEq, Repr

/-- Go `DecodeInfo`: header, classification, then the count checks. -/
def decodeInfo (s : List Nat) : Except String (InfoM × List Nat) :=
  match decodeHeader s with
  | none => .error "failed to decode DDS header"
  | some (hdr, s1) =>
      match classifyInfo hdr s1 with
      | .error e => .error e
      | .ok (cm, tag, dxt10, s2) =>
          match computeCounts hdr dxt10 with
          | .error e => .error e
          | .ok (ni, nm) => .ok (⟨hdr, dxt10, cm, tag, ni, nm⟩, s2)

/-- Modelled from the spec: `DecompressUncompressedDXT10` copies
`width*height*bytesPerPixel` raw little-endian bytes from the stream into
the freshly allocated plane (16 bytes per pixel for the 32-bit-float
model).  Only the uncompressed-DXT10 path for the models the write/decode
round trip exercises is modelled; the block decompressors live in
repository files that are not under `src/`. -/
def runDecompress (tag : DecompTag) (cm : ColorModelM) (w h : Nat) (s : List Nat) :
    Except String (List Nat × List Nat) :=
  match tag, cm with
  | .uncompressedDXT10, .nrgba128F =>
      match readBytes (w * h * 16) s with
      | some (px, rest) => .ok (px, rest)
      | none => .error "truncated pixel data"
  | .uncompressedDXT10, .nrgba64F =>
      match readBytes (w * h * 8) s with
      | some (px, rest) => .ok (px, rest)
      | none => .error "truncated pixel data"
  | _, _ => .error "decompressor not modelled"

/-- One decoded mip map: width, height, and the plane's pixel bytes (the
plane is allocated with `Rect(0,0,w,h)` and stride `bpp*w`). -/
abbrev MipM := Nat × Nat × List Nat

/-- The per-image mip loop of `Decode` (`dds.go` lines 423–471): up to
`mipMapsToRead` levels, stopping when either dimension reaches zero,
halving both after each level; each level consumes pixel data from the
stream through the info's decompressor. -/
def decodeMipsLoop (dec : Nat → Nat → List Nat → Except String (List Nat × List Nat)) :
    Nat → Nat → Nat → List Nat → Except String (List MipM × List Nat)
  | 0, _, _, s => .ok ([], s)
  | k + 1, w, h, s =>
      if w = 0 ∨ h = 0 then .ok ([], s)
      else
        match dec w h s with
        | .error e => .error e
        | .ok (px, s1) =>
            match decodeMipsLoop dec k (w / 2) (h / 2) s1 with
            | .error e => .error e
            | .ok (ms, s2) => .ok ((w, h, px) :: ms, s2)

/-- The image loop of `Decode` (`dds.go` lines 421–481): each image reads
its mips starting from the header dimensions and must get at least one
mip, else `"no mipmaps written"`. -/
def decodeImagesLoop (dec : Nat → Nat → List Nat → Except String (List Nat × List Nat))
    (mips w h : Nat) : Nat → List Nat → Except String (List (List MipM) × List Nat)
  | 0, s => .ok ([], s)
  | n + 1, s =>
      match decodeMipsLoop dec mips w h s with
      | .error e => .error e
      | .ok (m, s1) =>
          if m.isEmpty then .error "no mipmaps written"
          else
            match decodeImagesLoop dec mips w h n s1 with
            | .error e => .error e
            | .ok (is, s2) => .ok (m :: is, s2)

/-- Go `Decode`: decode the info, then read
`mipMapsToRead = NumMipMaps if readMipMaps || NumImages > 1 else 1`
levels for each of the `NumImages` images. -/
def ddsDecode (s : List Nat) (readMipMaps : Bool) : Except String (List (List MipM)) :=
  match decodeInfo s with
  | .error e => .error e
  | .ok (info, s1) =>
      let mipMapsToRead := if readMipMaps || decide (1 < info.numImages) then info.numMipMaps else 1
      match decodeImagesLoop (runDecompress info.decompress info.colorModel)
          mipMapsToRead info.header.width info.header.height info.numImages s1 with
      | .error e => .error e
      | .ok (imgs, _) => .ok imgs

/-- The header `WriteHDR` emits (`dds.go` lines 316–349) for an image of
the given pixel dimensions. -/
def writerHeader (w h : Nat) : DDSHeader :=
  { size := 124
    flags := headerFlagCaps ||| headerFlagHeight ||| headerFlagWidth |||
      headerFlagPixelFormat ||| headerFlagMipMapCount
    height := h
    width := w
    pitchOrLinearSize := 0
    depth := 0
    mipMapCount := 1
    reserved := List.replicate 11 0
    pixelFormat :=
      { size := 32
        flags := pixelFormatFlagFourCC
        fourCC := fourCCDX10
        rgbBitCount := 0
        rBitMask := 0
        gBitMask := 0
        bBitMask := 0
        aBitMask := 0 }
    caps := capsFlag ||| capsMipMap ||| capsTexture
    caps2 := 0
    caps3 := 0
    caps4 := 0
    reserved2 := 0 }

/-- The DXT10 extension `WriteHDR` emits for the 32-bit-float model. -/
def writerDXT10F : DXT10Header :=
  ⟨dxgiR32G32B32A32Float, d3d10ResourceDimensionTexture2D, 0, 1, 0⟩

/-- Go `WriteHDR` for an `NRGBA128FImage` with bounds `Rect(0,0,w,h)`: the
magic, the header, the DXT10 extension and the raw `Pix` bytes. -/
def writeHDR128F (w h : Nat) (pix : List Nat) : List Nat :=
  ddsMagic ++ encodeHeader (writerHeader w h) ++ encodeDXT10 writerDXT10F ++ pix

end HD2.dds

namespace HD2

theorem readU32_u32le (n : Nat) (hn : n < 4294967296) (rest : List Nat) :
    readU32 (u32le n ++ rest) = some (n, rest) := by
  simp only [u32le, List.cons_append, List.nil_append, readU32]
  congr 1
  congr 1
  omega

end HD2

namespace HD2.openexr

theorem length_reconstructFrom (p : Int) (l : List Int) :
    (reconstructFrom p l).length = l.length := by
  induction l generalizing p with
  | nil => rfl
  | cons x xs ih => simp [reconstructFrom, ih]

theorem length_reconstruct (l : List Int) : (reconstruct l).length = l.length := by
  cases l with
  | nil => rfl
  | cons x xs => simp [reconstruct, length_reconstructFrom]

theorem length_interleave (l : List Int) : (interleave l).length = l.length := by
  simp [interleave]

theorem deconstructFrom_reconstructFrom (l : List Int) :
    ∀ p : Int, (∀ x ∈ l, 0 ≤ x ∧ x < 256) →
      deconstructFrom p (reconstructFrom p l) = l := by
  induction l with
  | nil => intro p _; rfl
  | cons x xs ih =>
      intro p hmem
      have hx : 0 ≤ x ∧ x < 256 := hmem x (List.mem_cons_self x xs)
      have hxs : ∀ z ∈ xs, 0 ≤ z ∧ z < 256 := fun z hz => hmem z (List.mem_cons_of_mem x hz)
      simp only [reconstructFrom, deconstructFrom, List.cons.injEq]
      refine ⟨?_, ih _ hxs⟩
      omega

theorem deconstruct_reconstruct (l : List Int)
    (h : ∀ x ∈ l, 0 ≤ x ∧ x < 256) : deconstruct (reconstruct l) = l := by
  cases l with
  | nil => rfl
  | cons x xs =>
      simp only [reconstruct, deconstruct, List.cons.injEq, true_and]
      exact deconstructFrom_reconstructFrom xs x
        (fun z hz => h z (List.mem_cons_of_mem x hz))

theorem reorder_interleave (l : List Int) (heven : l.length % 2 = 0) :
    reorder (interleave l) = l := by
  have hlen : (reorder (interleave l)).length = l.length := by
    simp [reorder, length_interleave]
  apply List.ext_getElem hlen
  intro j hj hj'
  have hlen2 : (interleave l).length = l.length := length_interleave l
  simp only [reorder, List.getElem_ofFn, Fin.coe_cast, hlen2]
  by_cases hcase : j < l.length / 2
  · rw [if_pos hcase]
    have h2j : 2 * j < l.length := by omega
    rw [List.getD_eq_getElem _ _ (by omega : 2 * j < (interleave l).length)]
    simp only [interleave, List.getElem_ofFn, Fin.coe_cast]
    have : (2 * j) / 2 < l.length / 2 := by omega
    rw [if_pos this, if_pos (by omega : (2 * j) % 2 = 0)]
    rw [List.getD_eq_getElem _ _ (by omega : (2 * j) / 2 < l.length)]
    congr 1
    omega
  · rw [if_neg hcase]
    have hhalf : (l.length + 1) / 2 = l.length / 2 := by omega
    have hcond : (l.length + 1) / 2 ≤ j ∧ j - (l.length + 1) / 2 < l.length / 2 := by
      constructor <;> omega
    rw [if_pos hcond]
    have hidx : 2 * (j - (l.length + 1) / 2) + 1 < l.length := by omega
    rw [List.getD_eq_getElem _ _ (by omega : 2 * (j - (l.length + 1) / 2) + 1 < (interleave l).length)]
    simp only [interleave, List.getElem_ofFn, Fin.coe_cast]
    have hlt : (2 * (j - (l.length + 1) / 2) + 1) / 2 < l.length / 2 := by omega
    rw [if_pos hlt, if_neg (by omega : ¬ (2 * (j - (l.length + 1) / 2) + 1) % 2 = 0)]
    rw [List.getD_eq_getElem _ _ (by omega :
      (2 * (j - (l.length + 1) / 2) + 1) / 2 + (l.length + 1) / 2 < l.length)]
    congr 1
    omega

/-- The amended claim C2: on byte buffers of **even** length the
compression-side transforms invert the decompression-side transforms:
`deconstruct (reorder (interleave (reconstruct b))) = b`. -/
theorem c2_zip_transforms_inverse_even (l : List Int)
    (hlen : 1 ≤ l.length) (heven : l.length % 2 = 0)
    (hbytes : ∀ x ∈ l, 0 ≤ x ∧ x < 256) :
    deconstruct (reorder (interleave (reconstruct l))) = l := by
  have h1 : reorder (interleave (reconstruct l)) = reconstruct l :=
    reorder_interleave (reconstruct l) (by rw [length_reconstruct]; exact heven)
  rw [h1]
  exact deconstruct_reconstruct l hbytes

/-- Witness for C2's theorem at the concrete even-length buffer `[7, 200]`. -/
theorem c2_zip_transforms_inverse_even_witness :
    deconstruct (reorder (interleave (reconstruct [7, 200]))) = [7, 200] :=
  c2_zip_transforms_inverse_even [7, 200] (by decide) (by decide) (by decide)

/-- Counterexample to C2 as stated: the buffer `[1]` has length ≥ 1 and
byte-valued entries, but the round trip loses its only byte (`interleave`
only writes `2*(len/2)` output slots, so for odd lengths one slot keeps
the zero from allocation). -/
theorem c2_counterexample :
    1 ≤ ([1] : List Int).length ∧ (∀ x ∈ ([1] : List Int), 0 ≤ x ∧ x < 256) ∧
      deconstruct (reorder (interleave (reconstruct [1]))) ≠ [1] := by
  refine ⟨by decide, by decide, ?_⟩
  decide

theorem foldl_erase_eq_filter (attrs : List String) :
    ∀ req : List String, req.Nodup →
      attrs.foldl (fun l n => l.erase n) req = req.filter (fun r => !(attrs.contains r)) := by
  induction attrs with
  | nil =>
      intro req _
      simp
  | cons a as ih =>
      intro req hnd
      rw [List.foldl_cons, ih _ (List.Nodup.erase a hnd),
        List.Nodup.erase_eq_filter hnd a, List.filter_filter]
      apply List.filter_congr
      intro r _
      simp only [List.contains_cons, Bool.not_or, bne]
      by_cases hra : r = a <;> simp [hra, Bool.and_comm]

/-- Claim C3 is contradicted by the code: for the first scanline block of a
17-wide × 5-tall data window (`XMin=0, XMax=16, YMin=0, YMax=4`) with four
float32 channels, ZIP compression and stored size 400, the reader computes
`LineCount = min(5,16) = 5` but multiplies it by the data window's
**vertical** extent (5) instead of its width (17); the threshold becomes
`5*5*16 = 400`, so the block is marked uncompressed even though its stored
size 400 is smaller than `LineCount × width × channelCount ×
bytesPerSample = 5*17*4*4 = 1360`. -/
theorem c3_compressed_flag_code_bug :
    loadOpenEXRScanlineMeta ⟨0, 0, 16, 4⟩ [.float, .float, .float, .float] .zip [400]
      = [(5, false)] ∧
    400 < 5 * (⟨0, 0, 16, 4⟩ : Box2i).xExtent * 4 * 4 := by
  constructor
  · decide
  · decide

/-- Claim C1 is contradicted by the code: the writer packs a 17×5 float32
image into one ZIP scanline block of raw size `16*17*4*4 = 4352` bytes and
stores its zlib-compressed form whenever that is shorter, but for **any**
compressed payload size in `[400, 4352)` the reader — whose size threshold
uses the data window's vertical extent (5) in place of its width (17) —
marks the block as *not* compressed (`400 = 5*5*16` is its threshold).
`HdrImage` then skips decompression and copies DEFLATE bytes as pixels,
so the decoded image cannot reproduce the original pixel values. -/
theorem c1_exr_roundtrip_code_bug (s : Nat) (h1 : 400 ≤ s) (h2 : s < 4352) :
    writerUncompressedSize ⟨0, 0, 16, 4⟩ .float 4 = 4352 ∧
    loadOpenEXRScanlineMeta ⟨0, 0, 16, 4⟩ [.float, .float, .float, .float] .zip [s]
      = [(5, false)] := by
  refine ⟨by decide, ?_⟩
  show loadScanlineMeta 5 16 16 5 [s] = [(5, false)]
  simp only [loadScanlineMeta, u32mul, u32sub]
  norm_num
  omega

/-- Witness for C1's theorem at the concrete stored size 401. -/
theorem c1_exr_roundtrip_code_bug_witness :
    writerUncompressedSize ⟨0, 0, 16, 4⟩ .float 4 = 4352 ∧
    loadOpenEXRScanlineMeta ⟨0, 0, 16, 4⟩ [.float, .float, .float, .float] .zip [401]
      = [(5, false)] :=
  c1_exr_roundtrip_code_bug 401 (by decide) (by decide)

/-- Claim C8: header parsing fails, listing exactly the missing names,
whenever any of the eight required attributes is absent; a stream lacking
`compression` fails naming `compression` among the missing fields; and
unrecognized attribute names are skipped without causing failure (a
stream carrying all eight plus an unknown name parses). -/
theorem c8_missing_required_fields (attrs : List String) :
    (∀ r, r ∈ remainingRequired attrs ↔ r ∈ exrRequiredFields ∧ r ∉ attrs) ∧
    (checkRequiredFields attrs = .ok () ↔ ∀ r ∈ exrRequiredFields, r ∈ attrs) ∧
    ("compression" ∉ attrs →
      checkRequiredFields attrs = .error (remainingRequired attrs) ∧
      "compression" ∈ remainingRequired attrs) ∧
    checkRequiredFields (exrRequiredFields ++ ["chromaticities"]) = .ok () := by
  have hchar : ∀ r, r ∈ remainingRequired attrs ↔ r ∈ exrRequiredFields ∧ r ∉ attrs := by
    intro r
    rw [remainingRequired, foldl_erase_eq_filter attrs exrRequiredFields (by decide)]
    simp [List.mem_filter]
  refine ⟨hchar, ⟨?_, ?_⟩, ?_, rfl⟩
  · intro hok r hr
    by_contra hnot
    have hmem : r ∈ remainingRequired attrs := (hchar r).2 ⟨hr, hnot⟩
    unfold checkRequiredFields at hok
    by_cases hemp : remainingRequired attrs = []
    · rw [hemp] at hmem
      simp at hmem
    · rw [if_neg hemp] at hok
      exact absurd hok (by simp)
  · intro hall
    unfold checkRequiredFields
    rw [if_pos]
    rw [List.eq_nil_iff_forall_not_mem]
    intro r hmem
    exact ((hchar r).1 hmem).2 (hall r ((hchar r).1 hmem).1)
  · intro hc
    have hmem : "compression" ∈ remainingRequired attrs := (hchar _).2 ⟨by decide, hc⟩
    have hne : remainingRequired attrs ≠ [] := by
      intro h
      rw [h] at hmem
      simp at hmem
    refine ⟨?_, hmem⟩
    unfold checkRequiredFields
    rw [if_neg hne]

/-- Witness for C8 at a concrete attribute stream lacking `compression`. -/
theorem c8_missing_required_fields_witness :
    checkRequiredFields ["channels", "dataWindow"] =
      .error (remainingRequired ["channels", "dataWindow"]) ∧
    "compression" ∈ remainingRequired ["channels", "dataWindow"] :=
  (c8_missing_required_fields ["channels", "dataWindow"]).2.2.1 (by decide)

end HD2.openexr

namespace HD2.hdrColors

/-- Claim C6: for each of the three HDR plane layouts, `At(x, y)` at a
coordinate outside the plane's bounds returns the zero pixel (and, since
the out-of-bounds branch returns before any buffer access, cannot panic),
for every plane including the degenerate empty one. -/
theorem c6_at_out_of_bounds_zero (p : HPlane) (mem : List Nat) (x y : Int)
    (h : p.rect.inRect x y = false) :
    nrgba128FAt mem p x y = ⟨0, 0, 0, 0⟩ ∧
    nrgba64FAt mem p x y = ⟨0, 0, 0, 0⟩ ∧
    nrgba128UAt mem p x y = ⟨0, 0, 0, 0⟩ := by
  refine ⟨?_, ?_, ?_⟩ <;> simp [nrgba128FAt, nrgba64FAt, nrgba128UAt, h]

/-- Witness for C6 at the degenerate empty plane and coordinate (0, 0). -/
theorem c6_at_out_of_bounds_zero_witness :
    nrgba128FAt [] emptyPlane 0 0 = ⟨0, 0, 0, 0⟩ ∧
    nrgba64FAt [] emptyPlane 0 0 = ⟨0, 0, 0, 0⟩ ∧
    nrgba128UAt [] emptyPlane 0 0 = ⟨0, 0, 0, 0⟩ :=
  c6_at_out_of_bounds_zero emptyPlane [] 0 0 (by decide)

theorem intersect_of_not_empty {r s : Rect}
    (h : (r.intersect s).isEmpty = false) :
    r.intersect s =
      ⟨max r.minX s.minX, max r.minY s.minY, min r.maxX s.maxX, min r.maxY s.maxY⟩ := by
  unfold Rect.intersect at *
  by_cases hc : (⟨max r.minX s.minX, max r.minY s.minY, min r.maxX s.maxX,
      min r.maxY s.maxY⟩ : Rect).isEmpty
  · rw [if_pos hc] at h
    simp [Rect.isEmpty] at h
  · rw [if_neg hc]

theorem inRect_of_intersect {r s : Rect} (x y : Int)
    (hne : (r.intersect s).isEmpty = false)
    (h : (r.intersect s).inRect x y = true) : s.inRect x y = true := by
  rw [intersect_of_not_empty hne] at h
  simp only [Rect.inRect, Bool.and_eq_true, decide_eq_true_eq] at h ⊢
  omega

theorem pixAddr_view (bpp : Nat) (p : HPlane) (b : Option Nat) (g : GraySetting)
    (r2 : Rect) (x y : Int) :
    pixAddr bpp ⟨b, pixAddr bpp p r2.minX r2.minY, p.stride, r2, g⟩ x y =
      pixAddr bpp p x y := by
  simp only [pixAddr]
  ring

/-- Claim C7: for each layout, a `SubImage` with non-empty intersection
aliases the parent's backing buffer (`Pix` points into the same array)
with the parent's stride and the intersection as bounds; every coordinate
of the intersection has the same absolute byte address through the view
and through the parent, so a `Set` through either is the same update of
the shared backing array (hence visible through the other's `At`); a
disjoint rectangle yields the detached zero-value plane, which shares no
buffer. -/
theorem c7_subimage_aliasing (p : HPlane) (r : Rect) :
    ((r.intersect p.rect).isEmpty = false →
      ((nrgba128FSubImage p r).buf = p.buf ∧
        (nrgba128FSubImage p r).stride = p.stride ∧
        (nrgba128FSubImage p r).rect = r.intersect p.rect ∧
        ∀ x y, (r.intersect p.rect).inRect x y = true →
          pixAddr 16 (nrgba128FSubImage p r) x y = pixAddr 16 p x y ∧
          ∀ mem c, nrgba128FSet mem (nrgba128FSubImage p r) x y c =
            nrgba128FSet mem p x y c) ∧
      ((nrgba64FSubImage p r).buf = p.buf ∧
        (nrgba64FSubImage p r).stride = p.stride ∧
        (nrgba64FSubImage p r).rect = r.intersect p.rect ∧
        ∀ x y, (r.intersect p.rect).inRect x y = true →
          pixAddr 8 (nrgba64FSubImage p r) x y = pixAddr 8 p x y ∧
          ∀ mem c, nrgba64FSet mem (nrgba64FSubImage p r) x y c =
            nrgba64FSet mem p x y c) ∧
      ((nrgba128USubImage p r).buf = p.buf ∧
        (nrgba128USubImage p r).stride = p.stride ∧
        (nrgba128USubImage p r).rect = r.intersect p.rect ∧
        ∀ x y, (r.intersect p.rect).inRect x y = true →
          pixAddr 16 (nrgba128USubImage p r) x y = pixAddr 16 p x y ∧
          ∀ mem c, nrgba128USet mem (nrgba128USubImage p r) x y c =
            nrgba128USet mem p x y c)) ∧
    ((r.intersect p.rect).isEmpty = true →
      nrgba128FSubImage p r = emptyPlane ∧
      nrgba64FSubImage p r = emptyPlane ∧
      nrgba128USubImage p r = emptyPlane ∧
      emptyPlane.buf = none) := by
  constructor
  · intro hne
    have hsub128F : nrgba128FSubImage p r =
        ⟨p.buf, pixAddr 16 p (r.intersect p.rect).minX (r.intersect p.rect).minY,
          p.stride, r.intersect p.rect, p.gray⟩ := by
      unfold nrgba128FSubImage
      rw [if_neg (by simp [hne])]
    have hsub64F : nrgba64FSubImage p r =
        ⟨p.buf, pixAddr 8 p (r.intersect p.rect).minX (r.intersect p.rect).minY,
          p.stride, r.intersect p.rect, .none⟩ := by
      unfold nrgba64FSubImage
      rw [if_neg (by simp [hne])]
    have hsub128U : nrgba128USubImage p r =
        ⟨p.buf, pixAddr 16 p (r.intersect p.rect).minX (r.intersect p.rect).minY,
          p.stride, r.intersect p.rect, p.gray⟩ := by
      unfold nrgba128USubImage
      rw [if_neg (by simp [hne])]
    refine ⟨⟨by rw [hsub128F], by rw [hsub128F], by rw [hsub128F], ?_⟩,
      ⟨by rw [hsub64F], by rw [hsub64F], by rw [hsub64F], ?_⟩,
      ⟨by rw [hsub128U], by rw [hsub128U], by rw [hsub128U], ?_⟩⟩
    · intro x y hxy
      have hparent := inRect_of_intersect x y hne hxy
      rw [hsub128F]
      refine ⟨pixAddr_view 16 p _ _ _ x y, ?_⟩
      intro mem c
      simp [nrgba128FSet, pixAddr_view, hxy, hparent]
    · intro x y hxy
      have hparent := inRect_of_intersect x y hne hxy
      rw [hsub64F]
      refine ⟨pixAddr_view 8 p _ _ _ x y, ?_⟩
      intro mem c
      simp [nrgba64FSet, pixAddr_view, hxy, hparent]
    · intro x y hxy
      have hparent := inRect_of_intersect x y hne hxy
      rw [hsub128U]
      refine ⟨pixAddr_view 16 p _ _ _ x y, ?_⟩
      intro mem c
      simp [nrgba128USet, pixAddr_view, hxy, hparent]
  · intro hemp
    refine ⟨?_, ?_, ?_, rfl⟩ <;>
      simp [nrgba128FSubImage, nrgba64FSubImage, nrgba128USubImage, hemp]

/-- Witness for C7: a 2×2 parent plane, an overlapping and a disjoint
rectangle, checked at a concrete interior coordinate. -/
theorem c7_subimage_aliasing_witness :
    ((⟨1, 1, 2, 2⟩ : Rect).intersect
        (⟨(some 0 : Option Nat), 0, 32, ⟨0, 0, 2, 2⟩, .none⟩ : HPlane).rect).isEmpty = false ∧
    pixAddr 16 (nrgba128FSubImage ⟨some 0, 0, 32, ⟨0, 0, 2, 2⟩, .none⟩ ⟨1, 1, 2, 2⟩) 1 1 =
      pixAddr 16 (⟨some 0, 0, 32, ⟨0, 0, 2, 2⟩, .none⟩ : HPlane) 1 1 ∧
    nrgba128FSubImage ⟨some 0, 0, 32, ⟨0, 0, 2, 2⟩, .none⟩ ⟨5, 5, 6, 6⟩ = emptyPlane := by
  refine ⟨by decide, ?_, ?_⟩
  · exact (((c7_subimage_aliasing ⟨some 0, 0, 32, ⟨0, 0, 2, 2⟩, .none⟩
      ⟨1, 1, 2, 2⟩).1 (by decide)).1.2.2.2 1 1 (by decide)).1
  · exact ((c7_subimage_aliasing ⟨some 0, 0, 32, ⟨0, 0, 2, 2⟩, .none⟩
      ⟨5, 5, 6, 6⟩).2 (by decide)).1

/-- Claim C10: a `SubImage` of an `NRGBA64FImage` with a non-`None`
grayscale setting and an overlapping rectangle has grayscale `None` (the
struct literal in the source omits the field), while the `NRGBA128FImage`
and `NRGBA128UImage` versions copy the parent's setting. -/
theorem c10_subimage_gray_propagation (p : HPlane) (r : Rect)
    (hgray : p.gray ≠ .none)
    (hne : (r.intersect p.rect).isEmpty = false) :
    (nrgba64FSubImage p r).gray = .none ∧
    (nrgba128FSubImage p r).gray = p.gray ∧
    (nrgba128USubImage p r).gray = p.gray := by
  refine ⟨?_, ?_, ?_⟩ <;>
    simp [nrgba64FSubImage, nrgba128FSubImage, nrgba128USubImage, hne]

/-- Witness for C10 at a concrete red-preview 1×1 plane and the identity
rectangle. -/
theorem c10_subimage_gray_propagation_witness :
    (nrgba64FSubImage ⟨some 0, 0, 8, ⟨0, 0, 1, 1⟩, .red⟩ ⟨0, 0, 1, 1⟩).gray = .none ∧
    (nrgba128FSubImage ⟨some 0, 0, 16, ⟨0, 0, 1, 1⟩, .red⟩ ⟨0, 0, 1, 1⟩).gray = .red ∧
    (nrgba128USubImage ⟨some 0, 0, 16, ⟨0, 0, 1, 1⟩, .red⟩ ⟨0, 0, 1, 1⟩).gray = .red :=
  ⟨(c10_subimage_gray_propagation ⟨some 0, 0, 8, ⟨0, 0, 1, 1⟩, .red⟩ ⟨0, 0, 1, 1⟩
      (by decide) (by decide)).1,
    (c10_subimage_gray_propagation ⟨some 0, 0, 16, ⟨0, 0, 1, 1⟩, .red⟩ ⟨0, 0, 1, 1⟩
      (by decide) (by decide)).2.1,
    (c10_subimage_gray_propagation ⟨some 0, 0, 16, ⟨0, 0, 1, 1⟩, .red⟩ ⟨0, 0, 1, 1⟩
      (by decide) (by decide)).2.2⟩

/-- Claim C4 is contradicted by the code: a 1×1 `NRGBA128FImage` whose
stored alpha bytes `[0, 0, 128, 63]` are exactly the little-endian bit
pattern `0x3F800000` of `1.0` (so `At` byte-decodes the alpha channel to
`1.0 ≥ 1.0`) is reported **not** opaque: the `Opaque` loop passes its
local `alpha` to `binary.Decode` by value, the decode fails without
writing, and the zero-valued `alpha` fails the `alpha < 1.0` test on the
very first pixel. -/
theorem c4_opaque_code_bug :
    readLE [0, 0, 0, 0, 0, 0, 0, 0, 0, 0, 0, 0, 0, 0, 128, 63] 12 4 = 0x3F800000 ∧
    (nrgba128FAt [0, 0, 0, 0, 0, 0, 0, 0, 0, 0, 0, 0, 0, 0, 128, 63]
        ⟨some 0, 0, 16, ⟨0, 0, 1, 1⟩, .none⟩ 0 0).a = 0x3F800000 ∧
    nrgba128FOpaque ⟨some 0, 0, 16, ⟨0, 0, 1, 1⟩, .none⟩ = false := by
  refine ⟨by decide, by decide, by decide⟩

end HD2.hdrColors

namespace HD2.dds

theorem readU32_u32le_mod (n : Nat) (rest : List Nat) :
    readU32 (u32le n ++ rest) = some (n % 4294967296, rest) := by
  simp only [u32le, List.cons_append, List.nil_append, readU32]
  congr 2
  omega

theorem decodeMipsLoop_one (dec : Nat → Nat → List Nat → Except String (List Nat × List Nat))
    (w h : Nat) (s : List Nat) :
    decodeMipsLoop dec 1 w h s =
      if w = 0 ∨ h = 0 then .ok ([], s)
      else
        match dec w h s with
        | .error e => .error e
        | .ok (px, s1) => .ok ([(w, h, px)], s1) := by
  unfold decodeMipsLoop
  split
  · rfl
  · cases dec w h s with
    | error e => rfl
    | ok v => cases v; rfl

theorem decodeImagesLoop_one (dec : Nat → Nat → List Nat → Except String (List Nat × List Nat))
    (mips w h : Nat) (s : List Nat) :
    decodeImagesLoop dec mips w h 1 s =
      match decodeMipsLoop dec mips w h s with
      | .error e => .error e
      | .ok (m, s1) =>
          if m.isEmpty then .error "no mipmaps written" else .ok ([m], s1) := by
  unfold decodeImagesLoop
  cases decodeMipsLoop dec mips w h s with
  | error e => rfl
  | ok v =>
      cases v with
      | mk m s1 =>
          by_cases hm : m.isEmpty <;> simp [hm, decodeImagesLoop]

theorem decodeImagesLoop_spec (dec : Nat → Nat → List Nat → Except String (List Nat × List Nat))
    (mips w h : Nat) : ∀ (n : Nat) (s : List Nat) imgs rest,
      decodeImagesLoop dec mips w h n s = .ok (imgs, rest) →
        imgs.length = n ∧ ∀ m ∈ imgs, 1 ≤ m.length := by
  intro n
  induction n with
  | zero =>
      intro s imgs rest hok
      unfold decodeImagesLoop at hok
      simp only [Except.ok.injEq, Prod.mk.injEq] at hok
      obtain ⟨h1, _⟩ := hok
      subst h1
      simp
  | succ k ih =>
      intro s imgs rest hok
      unfold decodeImagesLoop at hok
      cases hm : decodeMipsLoop dec mips w h s with
      | error e => rw [hm] at hok; cases hok
      | ok v =>
          obtain ⟨m, s1⟩ := v
          rw [hm] at hok
          dsimp only at hok
          by_cases hemp : m.isEmpty
          · rw [if_pos hemp] at hok; cases hok
          · rw [if_neg hemp] at hok
            cases hrec : decodeImagesLoop dec mips w h k s1 with
            | error e => rw [hrec] at hok; cases hok
            | ok v2 =>
                obtain ⟨is, s2⟩ := v2
                rw [hrec] at hok
                simp only [Except.ok.injEq, Prod.mk.injEq] at hok
                obtain ⟨h1, _⟩ := hok
                subst h1
                obtain ⟨hlen, hall⟩ := ih s1 is s2 hrec
                refine ⟨by simp [hlen], ?_⟩
                intro x hx
                rcases List.mem_cons.1 hx with hx1 | hx2
                · subst hx1
                  have : x ≠ [] := by
                    intro hnil
                    rw [hnil] at hemp
                    simp at hemp
                  cases x with
                  | nil => simp at this
                  | cons a as => simp
                · exact hall x hx2

theorem computeCounts_pos (hdr : DDSHeader) (dxt10 : Option DXT10Header) (ni nm : Nat)
    (h : computeCounts hdr dxt10 = .ok (ni, nm)) : 1 ≤ ni ∧ 1 ≤ nm := by
  by_cases h1 : numImagesOf hdr dxt10 = 0
  · rw [computeCounts, if_pos h1] at h
    cases h
  · by_cases h2 : numMipMapsOf hdr = 0
    · rw [computeCounts, if_neg h1, if_pos h2] at h
      cases h
    · rw [computeCounts, if_neg h1, if_neg h2] at h
      simp only [Except.ok.injEq, Prod.mk.injEq] at h
      obtain ⟨hA, hB⟩ := h
      subst hA
      subst hB
      omega

set_option maxRecDepth 4000 in
theorem decodeHeader_writeHDR128F (w h : Nat) (pix : List Nat)
    (hmodw : w % 4294967296 = w) (hmodh : h % 4294967296 = h) :
    decodeHeader (writeHDR128F w h pix) =
      some (writerHeader w h, encodeDXT10 writerDXT10F ++ pix) := by
  have hfl : ((1 : Nat) ||| 2 ||| 4 ||| 4096 ||| 131072) % 4294967296 =
      1 ||| 2 ||| 4 ||| 4096 ||| 131072 := by decide
  have hcp : ((8 : Nat) ||| 4194304 ||| 4096) % 4294967296 = 8 ||| 4194304 ||| 4096 := by
    decide
  simp +decide only [hfl, hcp, writeHDR128F, encodeHeader, encodePixelFormat, encodeU32List,
    writerHeader, ddsMagic, fourCCDX10,
    headerFlagCaps, headerFlagHeight, headerFlagWidth, headerFlagPixelFormat,
    headerFlagMipMapCount, pixelFormatFlagFourCC, capsFlag, capsTexture, capsMipMap,
    List.append_assoc, List.cons_append, List.nil_append,
    List.replicate_succ, List.replicate_zero,
    decodeHeader, decodePixelFormat, read4, readU32_u32le_mod, Nat.reduceMod,
    hmodw, hmodh, ne_eq, if_false, if_true, reduceIte]

theorem classifyInfo_writeHDR128F (w h : Nat) (pix : List Nat) :
    classifyInfo (writerHeader w h) (encodeDXT10 writerDXT10F ++ pix) =
      .ok (.nrgba128F, .uncompressedDXT10, some writerDXT10F, pix) := by
  simp +decide only [classifyInfo, classifyDXGI, writerHeader, writerDXT10F,
    encodeDXT10, decodeDXT10, readU32_u32le_mod, Nat.reduceMod,
    fourCCATI1, fourCCATI2, fourCCDXT1, fourCCDXT3, fourCCDXT5, fourCCDX10,
    pixelFormatFlagAlphaPixels, pixelFormatFlagFourCC, pixelFormatFlagRGB,
    pixelFormatFlagYUV, pixelFormatFlagLuminance,
    d3d10ResourceDimensionTexture2D,
    dxgiR32G32B32A32Float, dxgiR32G32B32Float,
    List.append_assoc, ne_eq, if_false, if_true, reduceIte]

theorem computeCounts_writerHeader (w h : Nat) :
    computeCounts (writerHeader w h) (some writerDXT10F) = .ok (1, 1) := by
  simp +decide only [computeCounts, numImagesOf, numMipMapsOf, isVolume, isCubemap,
    countFaces, writerHeader, writerDXT10F, capsFlag, capsMipMap, capsTexture,
    caps2Cubemap, caps2Volume, d3d10ResourceMiscFlagTextureCube, if_false, if_true,
    reduceIte]

theorem decodeInfo_of_parts (s : List Nat) (hdr : DDSHeader) (s1 : List Nat)
    (cm : ColorModelM) (tag : DecompTag) (dxt10 : Option DXT10Header) (s2 : List Nat)
    (ni nm : Nat)
    (h1 : decodeHeader s = some (hdr, s1))
    (h2 : classifyInfo hdr s1 = .ok (cm, tag, dxt10, s2))
    (h3 : computeCounts hdr dxt10 = .ok (ni, nm)) :
    decodeInfo s = .ok (⟨hdr, dxt10, cm, tag, ni, nm⟩, s2) := by
  unfold decodeInfo
  rw [h1]
  dsimp only
  rw [h2]
  dsimp only
  rw [h3]

theorem ddsDecode_of_parts (s : List Nat) (readMipMaps : Bool) (info : InfoM)
    (s1 : List Nat) (imgs : List (List MipM)) (rest : List Nat)
    (h1 : decodeInfo s = .ok (info, s1))
    (h2 : decodeImagesLoop (runDecompress info.decompress info.colorModel)
        (if readMipMaps || decide (1 < info.numImages) then info.numMipMaps else 1)
        info.header.width info.header.height info.numImages s1 = .ok (imgs, rest)) :
    ddsDecode s readMipMaps = .ok imgs := by
  unfold ddsDecode
  rw [h1]
  dsimp only
  rw [h2]

theorem decodeInfo_writeHDR128F (w h : Nat) (pix : List Nat)
    (hw32 : w < 4294967296) (hh32 : h < 4294967296) :
    decodeInfo (writeHDR128F w h pix) =
      .ok (⟨writerHeader w h, some writerDXT10F, .nrgba128F, .uncompressedDXT10, 1, 1⟩,
        pix) :=
  decodeInfo_of_parts _ _ _ _ _ _ _ _ _
    (decodeHeader_writeHDR128F w h pix (Nat.mod_eq_of_lt hw32) (Nat.mod_eq_of_lt hh32))
    (classifyInfo_writeHDR128F w h pix) (computeCounts_writerHeader w h)

/-- The amended claim C5: for every 32-bit-float image with **positive**
dimensions (canonically allocated: bounds `Rect(0,0,w,h)`, stride `16*w`,
`16*w*h` pixel bytes), `WriteHDR` followed by `Decode` succeeds and
returns a DDS whose single image's base mip map has the same dimensions
and bit-identical pixel bytes, hence identical R, G, B, A values at every
pixel. -/
theorem c5_dds_write_decode_roundtrip (w h : Nat) (pix : List Nat)
    (hw : 0 < w) (hh : 0 < h) (hw32 : w < 4294967296) (hh32 : h < 4294967296)
    (hlen : pix.length = 16 * w * h) :
    ddsDecode (writeHDR128F w h pix) false = .ok [[(w, h, pix)]] := by
  have hwh : ¬(w = 0 ∨ h = 0) := by omega
  have hlen2 : pix.length = w * h * 16 := by rw [hlen]; ring
  have hcond : ¬(pix.length < w * h * 16) := by omega
  have htake : pix.take (w * h * 16) = pix := List.take_of_length_le (le_of_eq hlen2)
  have hdrop : pix.drop (w * h * 16) = [] := List.drop_eq_nil_of_le (le_of_eq hlen2)
  refine ddsDecode_of_parts _ _ _ _ _ [] (decodeInfo_writeHDR128F w h pix hw32 hh32) ?_
  dsimp only
  simp only [ite_self]
  rw [decodeImagesLoop_one, decodeMipsLoop_one]
  simp only [writerHeader]
  rw [if_neg hwh]
  simp only [runDecompress, readBytes, if_neg hcond, htake, hdrop]
  dsimp only [List.isEmpty_cons]
  rfl

/-- Witness for C5's theorem at a concrete 1×1 image. -/
theorem c5_dds_write_decode_roundtrip_witness :
    ddsDecode (writeHDR128F 1 1 [0, 0, 0, 0, 0, 0, 0, 0, 0, 0, 0, 0, 0, 0, 128, 63])
        false =
      .ok [[(1, 1, [0, 0, 0, 0, 0, 0, 0, 0, 0, 0, 0, 0, 0, 0, 128, 63])]] :=
  c5_dds_write_decode_roundtrip 1 1 _ (by decide) (by decide) (by decide) (by decide)
    (by decide)

/-- Counterexample to C5 as stated: the degenerate 0×0 `NRGBA128FImage` is
an in-memory 32-bit-float image, but `Decode` on its `WriteHDR` output
fails with `"no mipmaps written"` (the mip loop breaks immediately on a
zero dimension, leaving the image without its mandatory first mip). -/
theorem c5_counterexample :
    ddsDecode (writeHDR128F 0 0 []) false = .error "no mipmaps written" := by
  rfl

/-- Claim C9: successful `DecodeInfo` yields positive image and mip-map
counts; successful `Decode` yields at least one image, each with at least
one mip map; a cubemap header with no face bits set is rejected with
`"no images"`; and a mipmapped-texture header declaring `MipMapCount = 0`
is rejected with the missing-mip error. -/
theorem c9_decode_nonempty_invariants :
    (∀ hdr dxt10 ni nm, computeCounts hdr dxt10 = .ok (ni, nm) → 1 ≤ ni ∧ 1 ≤ nm) ∧
    (∀ s info rest, decodeInfo s = .ok (info, rest) →
      1 ≤ info.numImages ∧ 1 ≤ info.numMipMaps) ∧
    (∀ s readMipMaps imgs, ddsDecode s readMipMaps = .ok imgs →
      1 ≤ imgs.length ∧ ∀ m ∈ imgs, 1 ≤ m.length) ∧
    (∀ hdr dxt10, hdr.caps2 &&& caps2Cubemap ≠ 0 → hdr.caps2 &&& caps2Volume = 0 →
      countFaces hdr.caps2 = 0 →
      computeCounts hdr dxt10 = .error "invalid image header: no images") ∧
    (∀ hdr : DDSHeader, hdr.caps2 = 0 → hdr.caps &&& capsMipMap ≠ 0 →
      hdr.caps &&& capsTexture ≠ 0 → hdr.mipMapCount = 0 →
      computeCounts hdr none =
        .error "invalid image header: base image mipmap (mip 0) missing") := by
  have hinfo : ∀ s info rest, decodeInfo s = .ok (info, rest) →
      1 ≤ info.numImages ∧ 1 ≤ info.numMipMaps := by
    intro s info rest h
    unfold decodeInfo at h
    cases hh : decodeHeader s with
    | none => rw [hh] at h; cases h
    | some v =>
        obtain ⟨hdr, s1⟩ := v
        rw [hh] at h
        dsimp only at h
        cases hc : classifyInfo hdr s1 with
        | error e => rw [hc] at h; cases h
        | ok v2 =>
            obtain ⟨cm, tag, dxt10, s2⟩ := v2
            rw [hc] at h
            dsimp only at h
            cases hcc : computeCounts hdr dxt10 with
            | error e => rw [hcc] at h; cases h
            | ok v3 =>
                obtain ⟨ni, nm⟩ := v3
                rw [hcc] at h
                dsimp only at h
                simp only [Except.ok.injEq, Prod.mk.injEq] at h
                obtain ⟨h1, _⟩ := h
                subst h1
                exact computeCounts_pos hdr dxt10 ni nm hcc
  refine ⟨computeCounts_pos, hinfo, ?_, ?_, ?_⟩
  · intro s readMipMaps imgs h
    unfold ddsDecode at h
    cases hi : decodeInfo s with
    | error e => rw [hi] at h; cases h
    | ok v =>
        obtain ⟨info, s1⟩ := v
        rw [hi] at h
        dsimp only at h
        cases hl : decodeImagesLoop (runDecompress info.decompress info.colorModel)
            (if readMipMaps || decide (1 < info.numImages) then info.numMipMaps else 1)
            info.header.width info.header.height info.numImages s1 with
        | error e => rw [hl] at h; cases h
        | ok v2 =>
            obtain ⟨is, s2⟩ := v2
            rw [hl] at h
            dsimp only at h
            simp only [Except.ok.injEq] at h
            subst h
            obtain ⟨hlen, hall⟩ := decodeImagesLoop_spec _ _ _ _ _ _ _ _ hl
            refine ⟨?_, hall⟩
            have := (hinfo s info s1 hi).1
            omega
  · intro hdr dxt10 hcube hvol hfaces
    have hni : numImagesOf hdr dxt10 = 0 := by
      have hv : isVolume hdr = false := by
        simp [isVolume, hvol]
      have hc : isCubemap hdr dxt10 = true := by
        simp [isCubemap, hcube]
      rw [numImagesOf.eq_def, hv, hc]
      simp [hfaces]
    rw [computeCounts, if_pos hni]
  · intro hdr hcaps2 hmip htex hmmc
    have hni : ¬ numImagesOf hdr none = 0 := by
      have hv : isVolume hdr = false := by
        simp [isVolume, hcaps2]
      have hc : isCubemap hdr none = false := by
        simp [isCubemap, hcaps2]
      rw [numImagesOf.eq_def, hv, hc]
      simp
    have hnm : numMipMapsOf hdr = 0 := by
      rw [numMipMapsOf, if_pos, hmmc]
      simp [hmip, htex]
    rw [computeCounts, if_neg hni, if_pos hnm]

/-- Witness for C9 at the concrete stream of a written 1×1 float image. -/
theorem c9_decode_nonempty_invariants_witness :
    1 ≤ ([[(1, 1, List.replicate 16 0)]] : List (List MipM)).length ∧
      ∀ m ∈ ([[(1, 1, List.replicate 16 0)]] : List (List MipM)), 1 ≤ m.length :=
  c9_decode_nonempty_invariants.2.2.1 (writeHDR128F 1 1 (List.replicate 16 0)) false
    [[(1, 1, List.replicate 16 0)]] (by rfl)

end HD2.dds
